import Mathlib

/-!
Verification of the PRIMETRADE crypto-data pipeline (`src/main.py`).

The script is a linear ETL pipeline looped on a timer:
  `fetch_crypto_data` (HTTP GET with up to 3 attempts, 5-second sleep after
  each failed attempt) → `process_data` (DataFrame projection onto a fixed
  column list) → `update_excel` (replace the "Live Data" sheet of a workbook,
  catching `PermissionError` and generic exceptions) → `analyze_data`
  (top-5 by market cap, mean price, extremal 24h movers, formatted report).

We give a shallow embedding: JSON values become an inductive `Value` with
rational numbers, raw records are association lists, a DataFrame is a fixed
column list plus rows of optional cells, the workbook is an association list
of named sheets, and the effectful steps (network attempts, file write
outcome, timestamps) are parameterised by explicit oracles.
-/

namespace PrimeTrade

/-- A JSON-ish scalar value as it appears in the decoded API payload:
a string, a (decimal) number modelled as a rational, or JSON null. -/
inductive Value where
  | str (s : String)
  | num (q : ℚ)
  | null
  deriving DecidableEq, Repr

/-- One raw per-asset object of the decoded payload: a finite map from
field names to values, as a Python dict (association list). -/
abbrev RawRecord : Type := List (String × Value)

/-- A cell of the DataFrame: `none` is a missing value (`NaN`), i.e. the
field was absent from the raw record or was JSON null. -/
abbrev Cell : Type := Option Value

/-- A DataFrame row: the cells, in column order. -/
abbrev Row : Type := List Cell

/-- A DataFrame: the named columns, in order, and the rows. -/
structure Table where
  cols : List String
  rows : List Row
  deriving DecidableEq

/-- The column list passed to `pd.DataFrame(data, columns=[...])` in
`process_data` (src/main.py line 31). -/
def process_columns : List String :=
  ["name", "symbol", "current_price", "market_cap", "total_volume",
   "price_change_percentage_24h"]

/-- Field extraction as `pd.DataFrame` does it when given `columns`:
a key absent from the record, or mapped to JSON null, becomes a missing
value (`NaN`); any other value is kept. -/
def lookupField (r : RawRecord) (k : String) : Cell :=
  match List.lookup k r with
  | none => none
  | some Value.null => none
  | some v => some v

/-- `process_data` (src/main.py lines 29-31): builds a DataFrame from the
raw record list, projecting each record onto `process_columns`. -/
def process_data (data : List RawRecord) : Table :=
  { cols := process_columns
    rows := data.map (fun r => process_columns.map (lookupField r)) }

/-! ## Fetcher -/

/-- Outcome of one HTTP attempt, as seen by the `try` block of
`fetch_crypto_data`: either the decoded JSON payload (a list of raw
records), or a `requests.RequestException` (connection error, non-2xx
status raised by `raise_for_status`, or timeout) carrying a message. -/
inductive FetchOutcome where
  | ok (payload : List RawRecord)
  | err (msg : String)
  deriving DecidableEq

/-- Whether an attempt outcome is a transient failure
(caught by `except requests.RequestException`). -/
def FetchOutcome.isTransientFailure : FetchOutcome → Bool
  | .ok _ => false
  | .err _ => true

/-- Result of a full run of the fetcher: the returned payload, the list of
backoff waits performed (each entry is a `time.sleep` duration in seconds),
and the console messages printed. -/
structure FetchResult where
  payload : List RawRecord
  waits : List ℕ
  msgs : List String
  deriving DecidableEq

/-- The warning printed on a failed attempt (src/main.py line 24). -/
def fetchErrMsg (e : String) : String :=
  "⚠️ Error fetching data: " ++ e ++ ". Retrying..."

/-- The terminal message printed when all attempts fail
(src/main.py line 26). -/
def fetchFailMsg : String := "❌ Failed to fetch data after 3 attempts."

/-- The body of the `for _ in range(3)` loop of `fetch_crypto_data`:
`attempt` numbers the attempts from 0 (indexing the oracle), `budget` is
the number of loop iterations left.  A successful attempt returns its
payload at once; a failed attempt prints a warning and sleeps 5 seconds
before the next iteration.  When the loop exhausts, the terminal message
is printed and `[]` is returned (src/main.py lines 18-27). -/
def fetchFrom (oracle : ℕ → FetchOutcome) : ℕ → ℕ → FetchResult
  | _, 0 => { payload := [], waits := [], msgs := [fetchFailMsg] }
  | attempt, budget + 1 =>
    match oracle attempt with
    | .ok p => { payload := p, waits := [], msgs := [] }
    | .err e =>
      let rest := fetchFrom oracle (attempt + 1) budget
      { payload := rest.payload
        waits := 5 :: rest.waits
        msgs := fetchErrMsg e :: rest.msgs }

/-- `fetch_crypto_data` (src/main.py lines 8-27), with the network
modelled as an oracle giving the outcome of each attempt. -/
def fetch_crypto_data (oracle : ℕ → FetchOutcome) : FetchResult :=
  fetchFrom oracle 0 3

/-! ## Spreadsheet sink -/

/-- A sheet's contents: a grid of cells (header row then data rows). -/
abbrev Sheet : Type := List (List Cell)

/-- A workbook: named sheets, in order. -/
abbrev Workbook : Type := List (String × Sheet)

/-- What `df.to_excel(writer, sheet_name=..., index=False)` puts into a
sheet: the header row of column names followed by one data row per record,
with no index column. -/
def renderSheet (df : Table) : Sheet :=
  (df.cols.map (fun c => some (Value.str c))) :: df.rows

/-- `if_sheet_exists="replace"` semantics of `pd.ExcelWriter(..., mode="a")`:
if a sheet of that name exists its contents are replaced in place, otherwise
the new sheet is appended to the workbook. -/
def replaceSheet (wb : Workbook) (nm : String) (sh : Sheet) : Workbook :=
  if wb.any (fun p => p.1 = nm) then
    wb.map (fun p => if p.1 = nm then (nm, sh) else p)
  else
    wb ++ [(nm, sh)]

/-- The sheet name used by `update_excel`. -/
def liveDataSheet : String := "Live Data"

/-- The contents of the sheet named `nm` of a workbook (the first entry
wins; sheet names are unique in an xlsx file). -/
def getSheet : Workbook → String → Option Sheet
  | [], _ => none
  | (k, sh) :: tl, nm => if k = nm then some sh else getSheet tl nm

/-- The pure content of the `try` block of `update_excel`
(src/main.py lines 36-41): if the file does not exist (`existing = none`)
a fresh workbook with the single sheet "Live Data" is created; otherwise
the existing workbook is opened in append mode and its "Live Data" sheet
is replaced. -/
def writeWorkbook (existing : Option Workbook) (df : Table) : Workbook :=
  match existing with
  | none => [(liveDataSheet, renderSheet df)]
  | some wb => replaceSheet wb liveDataSheet (renderSheet df)

/-- How the attempt to write the file ends, an environment parameter:
the write succeeds, raises `PermissionError` (file locked by another
process), or raises some other exception carrying a message. -/
inductive WriteOutcome where
  | ok
  | permissionError
  | otherError (msg : String)
  deriving DecidableEq

/-- A Python exception escaping the write, before any handler runs. -/
inductive PyExc where
  | permissionError
  | other (msg : String)
  deriving DecidableEq

/-- The `try` block of `update_excel` as a fallible computation: on
success it produces the updated workbook, otherwise it raises. -/
def tryWrite (outcome : WriteOutcome) (existing : Option Workbook)
    (df : Table) : Except PyExc Workbook :=
  match outcome with
  | .ok => .ok (writeWorkbook existing df)
  | .permissionError => .error .permissionError
  | .otherError m => .error (.other m)

/-- Warning printed by the `except PermissionError` handler
(src/main.py line 43). -/
def lockWarnMsg : String := "⚠️ Excel file is open! Close it to update data."

/-- Message printed by the generic `except Exception` handler
(src/main.py line 45). -/
def genericWriteErrMsg (e : String) : String := "❌ Error updating Excel: " ++ e

/-- The confirmation line printed at the end of `update_excel`
(src/main.py line 46), timestamped with `datetime.now()`. -/
def excelUpdatedMsg (ts : String) : String := "✅ Excel updated at " ++ ts

/-- `update_excel` (src/main.py lines 33-46): runs the write, catches
`PermissionError` specifically and any other exception generically, and
unconditionally prints the timestamped confirmation line.  Returns the
resulting file state (unchanged when the write raised) and the console
messages; it never re-raises, so its result type is a plain pair. -/
def update_excel (outcome : WriteOutcome) (existing : Option Workbook)
    (df : Table) (ts : String) : Option Workbook × List String :=
  match tryWrite outcome existing df with
  | .ok wb => (some wb, [excelUpdatedMsg ts])
  | .error .permissionError => (existing, [lockWarnMsg, excelUpdatedMsg ts])
  | .error (.other m) =>
      (existing, [genericWriteErrMsg m, excelUpdatedMsg ts])

/-! ## Analyzer -/

/-- Numeric view of a cell, as pandas numeric operations see it:
a number participates, a missing value (`NaN`) or non-numeric entry
does not. -/
def cellNum : Cell → Option ℚ
  | some (Value.num q) => some q
  | _ => none

/-- Column access by label, `df[c]` for row `r`: the cell at the position
of `c` in the column list (missing when the row is too short or the label
is not a column). -/
def rowCell (df : Table) (c : String) (r : Row) : Cell :=
  match df.cols.indexOf? c with
  | none => none
  | some i => (r.get? i).join

/-- The numeric value of column `c` in row `r` of `df`. -/
def numCell (df : Table) (c : String) (r : Row) : Option ℚ :=
  cellNum (rowCell df c r)

/-- The sort key used on rows that carry a numeric value in column `c`
(the default is never consulted on such rows). -/
def colQ (df : Table) (c : String) (r : Row) : ℚ :=
  (numCell df c r).getD 0

/-- Insert `x` into `l` for a descending sort by key `k`: `x` goes in
front of the first element whose key is not greater than `k x`, so an
element inserted from earlier in the input precedes later elements with
an equal key. -/
def insertDescBy {α : Type} (k : α → ℚ) (x : α) : List α → List α
  | [] => [x]
  | y :: ys => if k x < k y then y :: insertDescBy k x ys else x :: y :: ys

/-- Stable descending insertion sort by key `k`. -/
def sortDescBy {α : Type} (k : α → ℚ) : List α → List α
  | [] => []
  | x :: xs => insertDescBy k x (sortDescBy k xs)

/-- `df.nlargest(n, c)` (pandas, `keep="first"`): the rows whose `c` value
is not `NaN`, in descending order of that value with ties broken by
original position, truncated to the first `n`. -/
def nlargest (df : Table) (n : ℕ) (c : String) : List Row :=
  (sortDescBy (colQ df c)
      (df.rows.filter (fun r => (numCell df c r).isSome))).take n

/-- First row achieving the best key value, where `better q q0 = true`
means a later value `q` strictly displaces the current best `q0`; rows
whose key is `NaN` are skipped, and `none` is returned when no row has a
key (pandas `idxmax`/`idxmin` raise on an all-`NaN` column).  Models
`df.loc[df[c].idxmax()]` (`better` = `>`) and `df.loc[df[c].idxmin()]`
(`better` = `<`). -/
def firstBestBy {α : Type} (better : ℚ → ℚ → Bool) (k : α → Option ℚ) :
    List α → Option (α × ℚ)
  | [] => none
  | r :: rs =>
    match k r with
    | none => firstBestBy better k rs
    | some q =>
      match firstBestBy better k rs with
      | none => some (r, q)
      | some (r2, q2) => if better q2 q then some (r2, q2) else some (r, q)

/-- Decimal digit characters of `n`, most significant first, via
fuel-guided structural recursion (so that it reduces definitionally). -/
def natDigits : ℕ → ℕ → List Char
  | _, 0 => []
  | 0, _ + 1 => []
  | n + 1, fuel + 1 => natDigits ((n + 1) / 10) fuel ++ [Nat.digitChar ((n + 1) % 10)]

/-- Decimal rendering of a natural number. -/
def natDecimal (n : ℕ) : String :=
  if n = 0 then "0" else String.mk (natDigits n n)

/-- Round a rational to the nearest integer, halves toward `+∞`:
`⌊q + 1/2⌋`, written out on numerator and denominator so that it reduces
definitionally. -/
def roundQ (q : ℚ) : ℤ := Int.fdiv (2 * q.num + q.den) (2 * q.den)

/-- Python `f"{x:.2f}"` on a decimal value: round to the nearest
hundredth (Python resolves exact ties by the binary value of the float;
ties are not exercised by any claim, and we round halves toward `+∞`)
and print with exactly two digits after the decimal point. -/
def format2 (q : ℚ) : String :=
  let n : ℤ := roundQ (q * 100)
  let m : ℕ := n.natAbs
  (if n < 0 then "-" else "") ++ natDecimal (m / 100) ++ "." ++
    String.mk [Nat.digitChar (m / 10 % 10), Nat.digitChar (m % 10)]

/-- Python string rendering of a cell (e.g. `highest_change['name']`):
a missing value prints as pandas `NaN` does, a number by `format2`. -/
def cellStr : Cell → String
  | some (Value.str s) => s
  | some (Value.num q) => format2 q
  | some Value.null => "None"
  | none => "nan"

/-- The fixed part of the average-price line of the report
(src/main.py line 61). -/
def avgLineIntro : String := "Average Price of Top 50 Cryptocurrencies: "

/-- The rendering of `avg_price` inside the report: `NaN` (mean of an
all-missing column) prints as "nan". -/
def renderAvg : Option ℚ → String
  | none => "nan"
  | some q => format2 q

/-- The outcome of `analyze_data` (src/main.py lines 48-70): the computed
rows and the rendered report lines the claims talk about. -/
structure Report where
  top5 : List Row
  avg : Option ℚ
  highest : Row
  lowest : Row
  avgLine : String
  highestLine : String
  lowestLine : String
  deriving DecidableEq

/-- `analyze_data` (src/main.py lines 48-70): top 5 by `market_cap`,
mean of `current_price` (`NaN` when no numeric price is present), and the
first rows attaining the extremal `price_change_percentage_24h`.
`idxmax`/`idxmin` raise `ValueError` on an empty or all-`NaN` column —
in particular on the empty table — which the caller does not catch;
that raising branch is modelled as `none`. -/
def analyze_data (df : Table) : Option Report :=
  let pctK := fun r => numCell df "price_change_percentage_24h" r
  let top_5 := nlargest df 5 "market_cap"
  let prices := df.rows.filterMap (fun r => numCell df "current_price" r)
  let avg : Option ℚ :=
    if prices.isEmpty then none else some (prices.sum / prices.length)
  match firstBestBy (fun a b => b < a) pctK df.rows,
        firstBestBy (fun a b => a < b) pctK df.rows with
  | some (hi, hq), some (lo, lq) =>
    some
      { top5 := top_5
        avg := avg
        highest := hi
        lowest := lo
        avgLine := avgLineIntro ++ "$" ++ renderAvg avg
        highestLine := "Highest 24h Change: " ++ cellStr (rowCell df "name" hi)
          ++ " (" ++ format2 hq ++ "%)"
        lowestLine := "Lowest 24h Change: " ++ cellStr (rowCell df "name" lo)
          ++ " (" ++ format2 lq ++ "%)" }
  | _, _ => none

/-! ## Main loop -/

/-- Message printed at the top of each cycle (src/main.py line 75). -/
def cycleStartMsg : String := "⏳ Fetching latest cryptocurrency data..."

/-- Message printed when the cycle is skipped because the fetch yielded
no data (src/main.py line 82). -/
def skipMsg : String := "❌ Skipping update due to data fetch failure."

/-- Message printed before the inter-cycle sleep (src/main.py line 83). -/
def cycleWaitMsg : String := "🔄 Waiting for 5 minutes before next update..."

/-- The environment one cycle runs in: the network oracle for its fetch
attempts, how the workbook write would end, and the wall-clock timestamp
string. -/
structure CycleEnv where
  oracle : ℕ → FetchOutcome
  writeOutcome : WriteOutcome
  ts : String

/-- Observable outcome of one cycle of `main` (src/main.py lines 74-84):
the workbook file state afterwards, the table handed to `analyze_data`
(if the data-bearing branch ran), the report produced, and the console
messages. -/
structure CycleResult where
  workbook : Option Workbook
  analyzedTable : Option Table
  report : Option Report
  msgs : List String

/-- One iteration of the `while True` loop of `main`: fetch, then — by
Python truthiness of the payload list — either run
`process_data`/`update_excel`/`analyze_data`, or print the skip message.
Either way the wait notice follows and the loop continues. -/
def runCycle (env : CycleEnv) (wb : Option Workbook) : CycleResult :=
  if (fetch_crypto_data env.oracle).payload ≠ [] then
    { workbook := (update_excel env.writeOutcome wb
        (process_data (fetch_crypto_data env.oracle).payload) env.ts).1
      analyzedTable := some (process_data (fetch_crypto_data env.oracle).payload)
      report := analyze_data (process_data (fetch_crypto_data env.oracle).payload)
      msgs := cycleStartMsg :: (fetch_crypto_data env.oracle).msgs ++
        ((update_excel env.writeOutcome wb
          (process_data (fetch_crypto_data env.oracle).payload) env.ts).2 ++
          [cycleWaitMsg]) }
  else
    { workbook := wb
      analyzedTable := none
      report := none
      msgs := cycleStartMsg :: (fetch_crypto_data env.oracle).msgs ++
        [skipMsg, cycleWaitMsg] }

/-- The workbook file state after `n` cycles of the scheduling loop,
cycle `j` running in environment `envs j`. -/
def runCycles (envs : ℕ → CycleEnv) (init : Option Workbook) : ℕ → Option Workbook
  | 0 => init
  | n + 1 => (runCycle (envs n) (runCycles envs init n)).workbook

/-! ## Spec-side characterisations

These predicates follow the specification's words (§4.4 and §8); the
theorems below compare `analyze_data` — embedded from the source —
against them. -/

/-- A rendered number with exactly two decimal places: everything before
the final point is a sign or digits, and exactly two digit characters
follow the point. -/
def decimalShape (s : String) : Prop :=
  ∃ intPart d1 d2, s = intPart ++ "." ++ String.mk [d1, d2] ∧
    d1.isDigit = true ∧ d2.isDigit = true ∧
    ∀ c ∈ intPart.toList, c = '-' ∨ c.isDigit = true

/-- Modelled from the spec (§4.4, §8): what a correct analysis of a
non-empty, fully numeric table computes.  `analyzedSpec df rep` says the
report `rep` contains: a stable top-5 by `market_cap` (some descending
arrangement of all rows whose prefix of length `min 5 n` is the top-5,
preserving input order inside every tie class), the arithmetic mean of
`current_price` rendered with a `$` prefix and two decimal places, and
the first rows attaining the maximal and minimal
`price_change_percentage_24h`, each rendered with two decimal places. -/
def analyzedSpec (df : Table) (rep : Report) : Prop :=
  (∃ rest,
    List.Perm (rep.top5 ++ rest) df.rows ∧
    List.Pairwise
      (fun a b => colQ df "market_cap" b ≤ colQ df "market_cap" a)
      (rep.top5 ++ rest) ∧
    (∀ q : ℚ,
      (rep.top5 ++ rest).filter (fun r => decide (colQ df "market_cap" r = q)) =
        df.rows.filter (fun r => decide (colQ df "market_cap" r = q))) ∧
    rep.top5.length = min 5 df.rows.length) ∧
  (∃ m : ℚ,
    rep.avg = some m ∧
    m * (df.rows.length : ℚ) = (df.rows.map (colQ df "current_price")).sum ∧
    rep.avgLine = avgLineIntro ++ "$" ++ format2 m ∧
    decimalShape (format2 m)) ∧
  (∃ hq : ℚ,
    numCell df "price_change_percentage_24h" rep.highest = some hq ∧
    (∀ s ∈ df.rows, ∀ v,
      numCell df "price_change_percentage_24h" s = some v → v ≤ hq) ∧
    (∃ i, df.rows.get? i = some rep.highest ∧
      ∀ j, j < i → ∀ s, df.rows.get? j = some s → ∀ v,
        numCell df "price_change_percentage_24h" s = some v → v < hq) ∧
    decimalShape (format2 hq) ∧
    (∃ pre, rep.highestLine = pre ++ format2 hq ++ "%)")) ∧
  (∃ lq : ℚ,
    numCell df "price_change_percentage_24h" rep.lowest = some lq ∧
    (∀ s ∈ df.rows, ∀ v,
      numCell df "price_change_percentage_24h" s = some v → lq ≤ v) ∧
    (∃ i, df.rows.get? i = some rep.lowest ∧
      ∀ j, j < i → ∀ s, df.rows.get? j = some s → ∀ v,
        numCell df "price_change_percentage_24h" s = some v → lq < v) ∧
    decimalShape (format2 lq) ∧
    (∃ pre, rep.lowestLine = pre ++ format2 lq ++ "%)"))

/-- The hypotheses under which the analyzer's computations are defined:
some rows, and the three numeric columns populated in every row. -/
def analyzableTable (df : Table) : Prop :=
  df.rows ≠ [] ∧
  ∀ r ∈ df.rows,
    (numCell df "market_cap" r).isSome = true ∧
    (numCell df "current_price" r).isSome = true ∧
    (numCell df "price_change_percentage_24h" r).isSome = true

/-! ## Example inputs (used by witnesses and concrete checks) -/

/-- Raw record of asset A: price 1, market cap 100, 24h change 5. -/
def exRawA : RawRecord :=
  [("name", Value.str "A"), ("symbol", Value.str "a"),
   ("current_price", Value.num 1), ("market_cap", Value.num 100),
   ("total_volume", Value.num 10), ("price_change_percentage_24h", Value.num 5)]

/-- Raw record of asset B: price 2, market cap 300, 24h change -3. -/
def exRawB : RawRecord :=
  [("name", Value.str "B"), ("symbol", Value.str "b"),
   ("current_price", Value.num 2), ("market_cap", Value.num 300),
   ("total_volume", Value.num 20), ("price_change_percentage_24h", Value.num (-3))]

/-- Raw record of asset C: price 3, market cap 50, 24h change 1. -/
def exRawC : RawRecord :=
  [("name", Value.str "C"), ("symbol", Value.str "c"),
   ("current_price", Value.num 3), ("market_cap", Value.num 50),
   ("total_volume", Value.num 30), ("price_change_percentage_24h", Value.num 1)]

/-- The example payload of the claims: caps (100, 300, 50), prices
(1, 2, 3), 24h changes (5, -3, 1). -/
def exData : List RawRecord := [exRawA, exRawB, exRawC]

/-- The example table. -/
def exDf : Table := process_data exData

/-- Row of asset A as projected into the table. -/
def exRowA : Row := process_columns.map (lookupField exRawA)

/-- Row of asset B as projected into the table. -/
def exRowB : Row := process_columns.map (lookupField exRawB)

/-- Row of asset C as projected into the table. -/
def exRowC : Row := process_columns.map (lookupField exRawC)

/-- The report the analyzer produces on the example table: top-1 by
market cap is B, the mean price renders as $2.00, the highest mover is
the 5.00% row (A), the lowest the -3.00% row (B). -/
def exReport : Report :=
  { top5 := [exRowB, exRowA, exRowC]
    avg := some 2
    highest := exRowA
    lowest := exRowB
    avgLine := "Average Price of Top 50 Cryptocurrencies: $2.00"
    highestLine := "Highest 24h Change: A (5.00%)"
    lowestLine := "Lowest 24h Change: B (-3.00%)" }

/-- A network oracle whose first attempt fails and whose second attempt
returns the example payload. -/
def oracleOneFail : ℕ → FetchOutcome :=
  fun i => if i = 0 then .err "timeout" else .ok exData

/-- A network oracle that always fails. -/
def oracleAllFail : ℕ → FetchOutcome := fun _ => .err "connection refused"

/-- A network oracle that immediately succeeds with an empty payload. -/
def oracleEmptyOk : ℕ → FetchOutcome := fun _ => .ok []

/-- A network oracle that immediately succeeds with the example payload. -/
def oracleOk : ℕ → FetchOutcome := fun _ => .ok exData

/-- An example cycle environment with an always-failing network. -/
def envAllFail : CycleEnv :=
  { oracle := oracleAllFail, writeOutcome := .ok, ts := "2026-10-12 00:00:00" }

/-- An example cycle environment whose fetch succeeds with `[]`. -/
def envEmptyOk : CycleEnv :=
  { oracle := oracleEmptyOk, writeOutcome := .ok, ts := "2026-10-12 00:00:00" }

/-- An example cycle environment whose fetch succeeds with the example
payload. -/
def envOk : CycleEnv :=
  { oracle := oracleOk, writeOutcome := .ok, ts := "2026-10-12 00:00:00" }

/-- A pre-existing workbook with one unrelated sheet. -/
def exWorkbook : Workbook := [("History", [[some (Value.str "old")]])]

/-- An example cycle environment whose workbook write hits a locked
file. -/
def envLocked : CycleEnv :=
  { oracle := oracleOk, writeOutcome := .permissionError, ts := "t1" }

/-! ## Fetcher lemmas -/

theorem exists_err_of_transient (o : FetchOutcome)
    (h : o.isTransientFailure = true) : ∃ m, o = .err m := by
  cases o with
  | ok p => simp [FetchOutcome.isTransientFailure] at h
  | err m => exact ⟨m, rfl⟩

theorem fetch_exhaust_payload_waits (oracle : ℕ → FetchOutcome)
    (hfail : ∀ i, i < 3 → (oracle i).isTransientFailure = true) :
    (fetch_crypto_data oracle).payload = [] ∧
    (fetch_crypto_data oracle).waits = [5, 5, 5] := by
  obtain ⟨m0, h0⟩ := exists_err_of_transient _ (hfail 0 (by norm_num))
  obtain ⟨m1, h1⟩ := exists_err_of_transient _ (hfail 1 (by norm_num))
  obtain ⟨m2, h2⟩ := exists_err_of_transient _ (hfail 2 (by norm_num))
  simp [fetch_crypto_data, fetchFrom, h0, h1, h2]

/-- C1: if the first `N` attempts fail transiently and attempt `N+1`
succeeds (`N+1 ≤ 3`), `fetch_crypto_data` returns the successful payload
after exactly `N` backoff waits of 5 seconds each, and `N ≤ 2`. -/
theorem fetch_retry_success (oracle : ℕ → FetchOutcome) (N : ℕ)
    (p : List RawRecord)
    (hfail : ∀ i, i < N → (oracle i).isTransientFailure = true)
    (hok : oracle N = .ok p) (hN : N + 1 ≤ 3) :
    (fetch_crypto_data oracle).payload = p ∧
    (fetch_crypto_data oracle).waits = List.replicate N 5 ∧
    (fetch_crypto_data oracle).waits.length = N ∧ N ≤ 2 := by
  have hN2 : N ≤ 2 := by omega
  interval_cases N
  · simp [fetch_crypto_data, fetchFrom, hok]
  · obtain ⟨m0, h0⟩ := exists_err_of_transient _ (hfail 0 (by norm_num))
    simp [fetch_crypto_data, fetchFrom, h0, hok, List.replicate]
  · obtain ⟨m0, h0⟩ := exists_err_of_transient _ (hfail 0 (by norm_num))
    obtain ⟨m1, h1⟩ := exists_err_of_transient _ (hfail 1 (by norm_num))
    simp [fetch_crypto_data, fetchFrom, h0, h1, hok, List.replicate]

/-- Witness for C1: with one transient failure and then a success
carrying the example payload, the fetcher returns that payload after one
5-second wait. -/
theorem fetch_retry_success_witness :
    ((∀ i, i < 1 → (oracleOneFail i).isTransientFailure = true) ∧
      oracleOneFail 1 = .ok exData ∧ 1 + 1 ≤ 3) ∧
    (fetch_crypto_data oracleOneFail).payload = exData ∧
    (fetch_crypto_data oracleOneFail).waits = List.replicate 1 5 ∧
    (fetch_crypto_data oracleOneFail).waits.length = 1 ∧ 1 ≤ 2 := by
  refine ⟨⟨by decide, rfl, by norm_num⟩, ?_⟩
  exact fetch_retry_success oracleOneFail 1 exData (by decide) rfl (by norm_num)

/-- C9: when all 3 attempts fail, the fetcher sleeps 5 seconds after
every failed attempt — the third included — so the empty result comes
after exactly 3 backoff waits, one more than the 2 the success path can
at most incur. -/
theorem fetch_retry_exhaustion (oracle : ℕ → FetchOutcome)
    (hfail : ∀ i, i < 3 → (oracle i).isTransientFailure = true) :
    (fetch_crypto_data oracle).payload = [] ∧
    (fetch_crypto_data oracle).waits = List.replicate 3 5 ∧
    (fetch_crypto_data oracle).waits.length = 2 + 1 := by
  obtain ⟨hp, hw⟩ := fetch_exhaust_payload_waits oracle hfail
  exact ⟨hp, by rw [hw]; rfl, by rw [hw]; rfl⟩

/-- Witness for C9: an always-failing oracle yields the empty payload
after three 5-second waits. -/
theorem fetch_retry_exhaustion_witness :
    (∀ i, i < 3 → (oracleAllFail i).isTransientFailure = true) ∧
    (fetch_crypto_data oracleAllFail).payload = [] ∧
    (fetch_crypto_data oracleAllFail).waits = List.replicate 3 5 ∧
    (fetch_crypto_data oracleAllFail).waits.length = 2 + 1 := by
  exact ⟨by decide, fetch_retry_exhaustion oracleAllFail (by decide)⟩

/-- C2: a cycle whose 3 fetch attempts all fail gets the empty result,
runs nothing downstream (no table is built, the workbook state is
unchanged, no report is produced), prints the skip message, and the
scheduling loop carries the same workbook state into the next cycle. -/
theorem cycle_exhaustion_skips_downstream (envs : ℕ → CycleEnv)
    (init : Option Workbook) (j : ℕ)
    (hfail : ∀ i, i < 3 → ((envs j).oracle i).isTransientFailure = true) :
    (fetch_crypto_data (envs j).oracle).payload = [] ∧
    (∀ wb, (runCycle (envs j) wb).analyzedTable = none ∧
      (runCycle (envs j) wb).report = none ∧
      (runCycle (envs j) wb).workbook = wb ∧
      skipMsg ∈ (runCycle (envs j) wb).msgs) ∧
    runCycles envs init (j + 1) = runCycles envs init j := by
  obtain ⟨hp, _⟩ := fetch_exhaust_payload_waits _ hfail
  have hcycle : ∀ wb, (runCycle (envs j) wb).analyzedTable = none ∧
      (runCycle (envs j) wb).report = none ∧
      (runCycle (envs j) wb).workbook = wb ∧
      skipMsg ∈ (runCycle (envs j) wb).msgs := by
    intro wb
    simp [runCycle, hp]
  refine ⟨hp, hcycle, ?_⟩
  show (runCycle (envs j) (runCycles envs init j)).workbook = runCycles envs init j
  exact (hcycle _).2.2.1

/-- Witness for C2: with the always-failing oracle the first cycle
leaves the initial (absent) workbook in place and skips all downstream
work. -/
theorem cycle_exhaustion_skips_downstream_witness :
    (∀ i, i < 3 → (envAllFail.oracle i).isTransientFailure = true) ∧
    (fetch_crypto_data envAllFail.oracle).payload = [] ∧
    (runCycle envAllFail none).analyzedTable = none ∧
    (runCycle envAllFail none).report = none ∧
    (runCycle envAllFail none).workbook = none ∧
    skipMsg ∈ (runCycle envAllFail none).msgs ∧
    runCycles (fun _ => envAllFail) none 1 = runCycles (fun _ => envAllFail) none 0 := by
  have h := cycle_exhaustion_skips_downstream (fun _ => envAllFail) none 0 (by decide)
  exact ⟨by decide, h.1, (h.2.1 none).1, (h.2.1 none).2.1, (h.2.1 none).2.2.1,
    (h.2.1 none).2.2.2, h.2.2⟩

/-- C10: a fetch that succeeds with an empty decoded list takes the same
branch as total failure: no backoff waits happened, yet the cycle builds
no table, writes no workbook, produces no report, and prints the
fetch-failure skip message. -/
theorem cycle_empty_payload_skips (env : CycleEnv) (wb : Option Workbook)
    (hok : env.oracle 0 = .ok []) :
    (fetch_crypto_data env.oracle).payload = [] ∧
    (fetch_crypto_data env.oracle).waits = [] ∧
    (runCycle env wb).analyzedTable = none ∧
    (runCycle env wb).report = none ∧
    (runCycle env wb).workbook = wb ∧
    skipMsg ∈ (runCycle env wb).msgs := by
  have hp : (fetch_crypto_data env.oracle).payload = [] ∧
      (fetch_crypto_data env.oracle).waits = [] := by
    simp [fetch_crypto_data, fetchFrom, hok]
  refine ⟨hp.1, hp.2, ?_, ?_, ?_, ?_⟩ <;> simp [runCycle, hp.1]

/-- Witness for C10: an oracle answering `ok []` at once makes the cycle
skip downstream work with no waits. -/
theorem cycle_empty_payload_skips_witness :
    envEmptyOk.oracle 0 = .ok [] ∧
    (fetch_crypto_data envEmptyOk.oracle).payload = [] ∧
    (fetch_crypto_data envEmptyOk.oracle).waits = [] ∧
    (runCycle envEmptyOk none).analyzedTable = none ∧
    (runCycle envEmptyOk none).report = none ∧
    (runCycle envEmptyOk none).workbook = none ∧
    skipMsg ∈ (runCycle envEmptyOk none).msgs := by
  exact ⟨rfl, cycle_empty_payload_skips envEmptyOk none rfl⟩

/-! ## Sink lemmas -/

theorem getSheet_map_replace_other (wb : Workbook) (nm nm2 : String)
    (sh : Sheet) (h : nm2 ≠ nm) :
    getSheet (wb.map (fun p => if p.1 = nm then (nm, sh) else p)) nm2 =
      getSheet wb nm2 := by
  induction wb with
  | nil => rfl
  | cons hd tl ih =>
    obtain ⟨k, s⟩ := hd
    simp only [List.map_cons]
    by_cases hhd : k = nm
    · subst hhd
      rw [if_pos rfl]
      simp only [getSheet]
      rw [if_neg (Ne.symm h), if_neg (Ne.symm h)]
      exact ih
    · rw [if_neg hhd]
      simp only [getSheet]
      by_cases hk : k = nm2
      · rw [if_pos hk, if_pos hk]
      · rw [if_neg hk, if_neg hk]
        exact ih

theorem getSheet_map_replace_self (wb : Workbook) (nm : String) (sh : Sheet)
    (h : wb.any (fun p => decide (p.1 = nm)) = true) :
    getSheet (wb.map (fun p => if p.1 = nm then (nm, sh) else p)) nm =
      some sh := by
  induction wb with
  | nil => simp at h
  | cons hd tl ih =>
    obtain ⟨k, s⟩ := hd
    simp only [List.map_cons]
    by_cases hhd : k = nm
    · rw [if_pos hhd]
      simp [getSheet]
    · rw [if_neg hhd]
      simp only [getSheet]
      rw [if_neg hhd]
      apply ih
      simp only [List.any_cons] at h
      rcases Bool.or_eq_true_iff.mp h with hk | htl
      · exact absurd (of_decide_eq_true hk) hhd
      · exact htl

theorem getSheet_append_absent (wb : Workbook) (nm : String) (sh : Sheet)
    (h : wb.any (fun p => decide (p.1 = nm)) = false) :
    getSheet (wb ++ [(nm, sh)]) nm = some sh := by
  induction wb with
  | nil => simp [getSheet]
  | cons hd tl ih =>
    obtain ⟨k, s⟩ := hd
    simp only [List.any_cons, Bool.or_eq_false_iff] at h
    have hk : k ≠ nm := by simpa using h.1
    simp only [List.cons_append, getSheet]
    rw [if_neg hk]
    exact ih h.2

theorem getSheet_append_other (wb : Workbook) (nm nm2 : String) (sh : Sheet)
    (h : nm2 ≠ nm) :
    getSheet (wb ++ [(nm, sh)]) nm2 = getSheet wb nm2 := by
  induction wb with
  | nil =>
    simp only [List.nil_append, getSheet]
    rw [if_neg (Ne.symm h)]
  | cons hd tl ih =>
    obtain ⟨k, s⟩ := hd
    simp only [List.cons_append, getSheet]
    by_cases hk : k = nm2
    · rw [if_pos hk, if_pos hk]
    · rw [if_neg hk, if_neg hk]
      exact ih

theorem replaceSheet_getSheet_self (wb : Workbook) (nm : String) (sh : Sheet) :
    getSheet (replaceSheet wb nm sh) nm = some sh := by
  unfold replaceSheet
  by_cases h : wb.any (fun p => decide (p.1 = nm)) = true
  · rw [if_pos h]
    exact getSheet_map_replace_self wb nm sh h
  · rw [if_neg h]
    exact getSheet_append_absent wb nm sh (Bool.eq_false_iff.mpr h)

theorem replaceSheet_getSheet_other (wb : Workbook) (nm nm2 : String)
    (sh : Sheet) (h : nm2 ≠ nm) :
    getSheet (replaceSheet wb nm sh) nm2 = getSheet wb nm2 := by
  unfold replaceSheet
  by_cases hany : wb.any (fun p => decide (p.1 = nm)) = true
  · rw [if_pos hany]
    exact getSheet_map_replace_other wb nm nm2 sh h
  · rw [if_neg hany]
    exact getSheet_append_other wb nm nm2 sh h

theorem writeWorkbook_getSheet_live (wb : Option Workbook) (df : Table) :
    getSheet (writeWorkbook wb df) liveDataSheet = some (renderSheet df) := by
  cases wb with
  | none => simp [writeWorkbook, getSheet]
  | some w => exact replaceSheet_getSheet_self w liveDataSheet (renderSheet df)

theorem writeWorkbook_getSheet_other (wb : Workbook) (df : Table)
    (nm : String) (h : nm ≠ liveDataSheet) :
    getSheet (writeWorkbook (some wb) df) nm = getSheet wb nm :=
  replaceSheet_getSheet_other wb liveDataSheet nm (renderSheet df) h

theorem runCycle_msgs_end_with_wait (env : CycleEnv) (wb : Option Workbook) :
    (runCycle env wb).msgs.getLast? = some cycleWaitMsg := by
  unfold runCycle
  by_cases h : (fetch_crypto_data env.oracle).payload = []
  · rw [if_neg (by simp [h])]
    show (cycleStartMsg :: ((fetch_crypto_data env.oracle).msgs ++
      [skipMsg, cycleWaitMsg])).getLast? = some cycleWaitMsg
    rw [← List.cons_append,
      show [skipMsg, cycleWaitMsg] = [skipMsg] ++ [cycleWaitMsg] from rfl,
      ← List.append_assoc]
    exact List.getLast?_concat _
  · rw [if_pos (by simp [h])]
    show (cycleStartMsg :: ((fetch_crypto_data env.oracle).msgs ++
      ((update_excel env.writeOutcome wb
        (process_data (fetch_crypto_data env.oracle).payload) env.ts).2 ++
        [cycleWaitMsg]))).getLast? = some cycleWaitMsg
    rw [← List.cons_append, ← List.append_assoc]
    exact List.getLast?_concat _

/-- C3: a successful `update_excel` on an existing workbook replaces
exactly the "Live Data" sheet with the rendered table (header row then
one data row per record, no index column); every other sheet keeps its
contents; two successive writes leave only the latest table in that
sheet; on a missing file a fresh workbook with the single "Live Data"
sheet is created. -/
theorem update_excel_replaces_only_live_sheet (wb : Workbook)
    (df df2 : Table) (ts ts2 : String) :
    (update_excel .ok (some wb) df ts).1 = some (writeWorkbook (some wb) df) ∧
    getSheet (writeWorkbook (some wb) df) liveDataSheet =
      some (renderSheet df) ∧
    (∀ nm, nm ≠ liveDataSheet →
      getSheet (writeWorkbook (some wb) df) nm = getSheet wb nm) ∧
    ((update_excel .ok (some (writeWorkbook (some wb) df)) df2 ts2).1 =
      some (writeWorkbook (some (writeWorkbook (some wb) df)) df2) ∧
     getSheet (writeWorkbook (some (writeWorkbook (some wb) df)) df2)
        liveDataSheet = some (renderSheet df2) ∧
     (∀ nm, nm ≠ liveDataSheet →
       getSheet (writeWorkbook (some (writeWorkbook (some wb) df)) df2) nm =
         getSheet wb nm)) ∧
    writeWorkbook none df = [(liveDataSheet, renderSheet df)] ∧
    (renderSheet df).length = df.rows.length + 1 ∧
    (renderSheet df).head? =
      some (df.cols.map (fun c => some (Value.str c))) ∧
    (renderSheet df).tail = df.rows := by
  refine ⟨rfl, writeWorkbook_getSheet_live _ df, ?_, ⟨rfl, ?_, ?_⟩, rfl, ?_, rfl, rfl⟩
  · intro nm h
    exact writeWorkbook_getSheet_other wb df nm h
  · exact writeWorkbook_getSheet_live _ df2
  · intro nm h
    rw [writeWorkbook_getSheet_other _ df2 nm h]
    exact writeWorkbook_getSheet_other wb df nm h
  · simp [renderSheet]

/-- Witness for C3: writing the example tables over a workbook holding a
"History" sheet keeps that sheet and leaves the latest table under
"Live Data". -/
theorem update_excel_replaces_only_live_sheet_witness :
    (update_excel .ok (some exWorkbook) (process_data [exRawA])
        "t1").1 = some (writeWorkbook (some exWorkbook) (process_data [exRawA])) ∧
    getSheet (writeWorkbook (some exWorkbook) (process_data [exRawA]))
        liveDataSheet = some (renderSheet (process_data [exRawA])) ∧
    getSheet (writeWorkbook (some exWorkbook) (process_data [exRawA]))
        "History" = getSheet exWorkbook "History" ∧
    getSheet (writeWorkbook (some (writeWorkbook (some exWorkbook)
        (process_data [exRawA]))) (process_data [exRawB]))
        liveDataSheet = some (renderSheet (process_data [exRawB])) ∧
    getSheet (writeWorkbook (some (writeWorkbook (some exWorkbook)
        (process_data [exRawA]))) (process_data [exRawB]))
        "History" = getSheet exWorkbook "History" ∧
    writeWorkbook none (process_data [exRawA]) =
      [(liveDataSheet, renderSheet (process_data [exRawA]))] := by
  have h := update_excel_replaces_only_live_sheet exWorkbook
    (process_data [exRawA]) (process_data [exRawB]) "t1" "t2"
  exact ⟨h.1, h.2.1, h.2.2.1 "History" (by decide), h.2.2.2.1.2.1,
    h.2.2.2.1.2.2 "History" (by decide), h.2.2.2.2.1⟩

/-- C6: a write failing with `PermissionError` (file locked elsewhere) is
caught by its dedicated handler, emits the distinct lock warning, and
`update_excel` returns normally with the file state unchanged; any other
write failure is caught generically and logged with its message, likewise
without propagating. -/
theorem update_excel_failures_handled (wb : Option Workbook) (df : Table)
    (ts m : String) :
    tryWrite .permissionError wb df = .error .permissionError ∧
    update_excel .permissionError wb df ts =
      (wb, [lockWarnMsg, excelUpdatedMsg ts]) ∧
    tryWrite (.otherError m) wb df = .error (.other m) ∧
    update_excel (.otherError m) wb df ts =
      (wb, [genericWriteErrMsg m, excelUpdatedMsg ts]) ∧
    (∀ env wb2, env.writeOutcome = .permissionError →
      (runCycle env wb2).msgs.getLast? = some cycleWaitMsg) :=
  ⟨rfl, rfl, rfl, rfl, fun env wb2 _ => runCycle_msgs_end_with_wait env wb2⟩

/-- Witness for C6: the two handled failure modes at concrete inputs. -/
theorem update_excel_failures_handled_witness :
    update_excel .permissionError (some exWorkbook) exDf "t1" =
      (some exWorkbook, [lockWarnMsg, excelUpdatedMsg "t1"]) ∧
    update_excel (.otherError "disk full") (some exWorkbook) exDf "t1" =
      (some exWorkbook, [genericWriteErrMsg "disk full", excelUpdatedMsg "t1"]) ∧
    envLocked.writeOutcome = .permissionError ∧
    (runCycle envLocked none).msgs.getLast? = some cycleWaitMsg := by
  have h := update_excel_failures_handled (some exWorkbook) exDf "t1" "disk full"
  exact ⟨h.2.1, h.2.2.2.1, rfl, h.2.2.2.2 envLocked none rfl⟩

/-- C7: every invocation of `update_excel`, whatever the outcome of the
write, ends by printing the timestamped "Excel updated" confirmation
line. -/
theorem update_excel_always_confirms (outcome : WriteOutcome)
    (wb : Option Workbook) (df : Table) (ts : String) :
    (update_excel outcome wb df ts).2.getLast? = some (excelUpdatedMsg ts) ∧
    excelUpdatedMsg ts ∈ (update_excel outcome wb df ts).2 := by
  cases outcome <;> simp [update_excel, tryWrite]

/-! ## Transformer (C5) -/

/-- Counterexample to C5 as stated: the column list of the table built by
`process_data` — the exact list the claim itself enumerates — has six
entries, not five, so the table does not have "exactly the five columns". -/
theorem process_data_columns_not_five :
    (process_data [[("name", Value.str "bitcoin")]]).cols = process_columns ∧
    (process_data [[("name", Value.str "bitcoin")]]).cols.length = 6 ∧
    (process_data [[("name", Value.str "bitcoin")]]).cols.length ≠ 5 := by
  refine ⟨rfl, rfl, by decide⟩

/-- C5 (amended: six columns, not five): `process_data` is a pure, total
function producing a table whose columns are exactly `name`, `symbol`,
`current_price`, `market_cap`, `total_volume`,
`price_change_percentage_24h` in that order, with one row per raw record
in input order; the cell at row `i`, column `c` is the projection of raw
record `i` at field `c`, and an absent or JSON-null field projects to a
missing value rather than failing. -/
theorem process_data_projection (data : List RawRecord) :
    (process_data data).cols =
      ["name", "symbol", "current_price", "market_cap", "total_volume",
       "price_change_percentage_24h"] ∧
    (process_data data).cols.length = 6 ∧
    (process_data data).rows.length = data.length ∧
    (∀ i r, data.get? i = some r →
      ∃ row, (process_data data).rows.get? i = some row ∧
        row.length = 6 ∧
        ∀ j c, process_columns.get? j = some c →
          row.get? j = some (lookupField r c)) ∧
    (∀ r c, List.lookup c r = none ∨ List.lookup c r = some Value.null →
      lookupField r c = none) := by
  refine ⟨rfl, rfl, by simp [process_data], ?_, ?_⟩
  · intro i r hi
    have hi2 : data[i]? = some r := by
      rw [← List.get?_eq_getElem?]
      exact hi
    refine ⟨process_columns.map (lookupField r), ?_, rfl, ?_⟩
    · simp [process_data, List.get?_eq_getElem?, List.getElem?_map, hi2]
    · intro j c hj
      have hj2 : process_columns[j]? = some c := by
        rw [← List.get?_eq_getElem?]
        exact hj
      simp [List.get?_eq_getElem?, List.getElem?_map, hj2]
  · intro r c hrc
    rcases hrc with h | h <;> simp [lookupField, h]

/-- Witness for C5 (amended): a record missing `market_cap` and with a
null `total_volume` projects to a row with those cells missing. -/
theorem process_data_projection_witness :
    [[("name", Value.str "eth"), ("total_volume", Value.null)]].get? 0 =
      some [("name", Value.str "eth"), ("total_volume", Value.null)] ∧
    process_columns.get? 4 = some "total_volume" ∧
    (∃ row,
      (process_data [[("name", Value.str "eth"),
        ("total_volume", Value.null)]]).rows.get? 0 = some row ∧
      row.length = 6 ∧
      row.get? 4 = some none ∧
      row.get? 0 = some (some (Value.str "eth")) ∧
      row.get? 3 = some none) := by
  have h := process_data_projection
    [[("name", Value.str "eth"), ("total_volume", Value.null)]]
  obtain ⟨row, hrow, hlen, hcell⟩ := h.2.2.2.1 0 _ rfl
  refine ⟨rfl, rfl, row, hrow, hlen, ?_, ?_, ?_⟩
  · have := hcell 4 "total_volume" rfl
    rw [this]
    rfl
  · have := hcell 0 "name" rfl
    rw [this]
    rfl
  · have := hcell 3 "market_cap" rfl
    rw [this]
    rfl

/-! ## Analyzer emptiness (C8) -/

/-- C8: `analyze_data` itself performs no non-emptiness check — on the
empty table its extremal computations raise (modelled as `none`), so the
error branch is reachable by direct call; but the main loop hands a table
to the analyzer only when the fetch payload was non-empty, and
`process_data` preserves row count, so the table reaching the analyzer is
never empty. -/
theorem analyze_empty_undefined_but_unreachable :
    analyze_data (process_data []) = none ∧
    analyze_data { cols := process_columns, rows := [] } = none ∧
    (∀ env wb df, (runCycle env wb).analyzedTable = some df →
      df.rows ≠ [] ∧
      df.rows.length = (fetch_crypto_data env.oracle).payload.length) := by
  refine ⟨rfl, rfl, ?_⟩
  intro env wb df h
  unfold runCycle at h
  by_cases hp : (fetch_crypto_data env.oracle).payload = []
  · rw [if_neg (by simp [hp])] at h
    exact absurd h (by simp)
  · rw [if_pos (by simp [hp])] at h
    have hdf : df = process_data (fetch_crypto_data env.oracle).payload := by
      injection h with h2
      exact h2.symm
    subst hdf
    constructor
    · simp [process_data, hp]
    · simp [process_data]

/-- Witness for C8: a cycle with a successful non-empty fetch hands the
analyzer a non-empty table. -/
theorem analyze_empty_undefined_but_unreachable_witness :
    (runCycle envOk none).analyzedTable = some (process_data exData) ∧
    (process_data exData).rows ≠ [] ∧
    (process_data exData).rows.length =
      (fetch_crypto_data envOk.oracle).payload.length := by
  have h := analyze_empty_undefined_but_unreachable.2.2 envOk none
    (process_data exData) rfl
  exact ⟨rfl, h.1, h.2⟩

/-! ## Analyzer lemmas (C4) -/

theorem insertDescBy_perm {α : Type} (k : α → ℚ) (x : α) (l : List α) :
    List.Perm (insertDescBy k x l) (x :: l) := by
  induction l with
  | nil => exact List.Perm.refl _
  | cons y ys ih =>
    unfold insertDescBy
    by_cases h : k x < k y
    · rw [if_pos h]
      exact (ih.cons y).trans (List.Perm.swap x y ys)
    · rw [if_neg h]

theorem sortDescBy_perm {α : Type} (k : α → ℚ) (l : List α) :
    List.Perm (sortDescBy k l) l := by
  induction l with
  | nil => exact List.Perm.refl _
  | cons x xs ih =>
    exact (insertDescBy_perm k x _).trans (ih.cons x)

theorem insertDescBy_pairwise {α : Type} (k : α → ℚ) (x : α) (l : List α)
    (h : List.Pairwise (fun a b => k b ≤ k a) l) :
    List.Pairwise (fun a b => k b ≤ k a) (insertDescBy k x l) := by
  induction l with
  | nil => simp [insertDescBy]
  | cons y ys ih =>
    unfold insertDescBy
    rcases List.pairwise_cons.mp h with ⟨hy, hys⟩
    by_cases hxy : k x < k y
    · rw [if_pos hxy]
      refine List.pairwise_cons.mpr ⟨?_, ih hys⟩
      intro a ha
      have ha2 : a = x ∨ a ∈ ys := by
        have := (insertDescBy_perm k x ys).mem_iff.mp ha
        simpa using this
      rcases ha2 with rfl | ha3
      · exact le_of_lt hxy
      · exact hy a ha3
    · rw [if_neg hxy]
      refine List.pairwise_cons.mpr ⟨?_, h⟩
      intro a ha
      rcases List.mem_cons.mp ha with rfl | ha2
      · exact not_lt.mp hxy
      · exact le_trans (hy a ha2) (not_lt.mp hxy)

theorem sortDescBy_pairwise {α : Type} (k : α → ℚ) (l : List α) :
    List.Pairwise (fun a b => k b ≤ k a) (sortDescBy k l) := by
  induction l with
  | nil => simp [sortDescBy]
  | cons x xs ih => exact insertDescBy_pairwise k x _ ih

theorem insertDescBy_filter {α : Type} (k : α → ℚ) (x : α) (l : List α)
    (q : ℚ) :
    (insertDescBy k x l).filter (fun a => decide (k a = q)) =
      if k x = q then x :: l.filter (fun a => decide (k a = q))
      else l.filter (fun a => decide (k a = q)) := by
  induction l with
  | nil =>
    by_cases hxq : k x = q <;> simp [insertDescBy, hxq]
  | cons y ys ih =>
    unfold insertDescBy
    by_cases hxy : k x < k y
    · rw [if_pos hxy]
      rw [List.filter_cons, List.filter_cons, ih]
      by_cases hyq : k y = q
      · have hxq : k x ≠ q := by
          intro hc
          rw [← hyq] at hc
          rw [hc] at hxy
          exact absurd hxy (lt_irrefl _)
        simp [hyq, hxq]
      · by_cases hxq : k x = q <;> simp [hyq, hxq]
    · rw [if_neg hxy]
      rw [List.filter_cons, List.filter_cons]
      by_cases hxq : k x = q <;> by_cases hyq : k y = q <;>
        simp [hxq, hyq, List.filter_cons]

theorem sortDescBy_filter {α : Type} (k : α → ℚ) (l : List α) (q : ℚ) :
    (sortDescBy k l).filter (fun a => decide (k a = q)) =
      l.filter (fun a => decide (k a = q)) := by
  induction l with
  | nil => simp [sortDescBy]
  | cons x xs ih =>
    unfold sortDescBy
    rw [insertDescBy_filter, List.filter_cons]
    by_cases hxq : k x = q <;> simp [hxq, ih]

theorem firstBestBy_eq_none {α : Type} (better : ℚ → ℚ → Bool)
    (k : α → Option ℚ) (l : List α)
    (h : firstBestBy better k l = none) : ∀ a ∈ l, k a = none := by
  induction l with
  | nil => simp
  | cons r rs ih =>
    intro a ha
    cases hkr : k r with
    | none =>
      simp only [firstBestBy, hkr] at h
      rcases List.mem_cons.mp ha with rfl | ha2
      · exact hkr
      · exact ih h a ha2
    | some q =>
      simp only [firstBestBy, hkr] at h
      cases hrest : firstBestBy better k rs with
      | none => rw [hrest] at h; exact absurd h (by simp)
      | some p =>
        obtain ⟨r2, q2⟩ := p
        simp only [hrest] at h
        by_cases hb : better q2 q = true
        · rw [if_pos hb] at h; exact absurd h (by simp)
        · rw [if_neg hb] at h; exact absurd h (by simp)

theorem firstBestBy_isSome {α : Type} (better : ℚ → ℚ → Bool)
    (k : α → Option ℚ) (l : List α) (a : α) (ha : a ∈ l) (v : ℚ)
    (hv : k a = some v) :
    ∃ p, firstBestBy better k l = some p := by
  cases h : firstBestBy better k l with
  | none =>
    have := firstBestBy_eq_none better k l h a ha
    rw [this] at hv
    cases hv
  | some p => exact ⟨p, rfl⟩

theorem firstBestBy_spec {α : Type} (better : ℚ → ℚ → Bool)
    (hirr : ∀ a, better a a = false)
    (hasymm : ∀ a b, better a b = true → better b a = false)
    (htrans : ∀ a b c, better a b = false → better b c = false →
      better a c = false)
    (k : α → Option ℚ) (l : List α) (r : α) (q : ℚ)
    (h : firstBestBy better k l = some (r, q)) :
    k r = some q ∧
    (∀ s ∈ l, ∀ v, k s = some v → better v q = false) ∧
    (∃ i, l.get? i = some r ∧
      ∀ j, j < i → ∀ s, l.get? j = some s → ∀ v, k s = some v →
        better q v = true) := by
  induction l generalizing r q with
  | nil => simp [firstBestBy] at h
  | cons a as ih =>
    cases hka : k a with
    | none =>
      simp only [firstBestBy, hka] at h
      obtain ⟨hkr, hall, i, hi, hbefore⟩ := ih r q h
      refine ⟨hkr, ?_, i + 1, by simpa using hi, ?_⟩
      · intro s hs v hv
        rcases List.mem_cons.mp hs with rfl | hs2
        · rw [hka] at hv; cases hv
        · exact hall s hs2 v hv
      · intro j hj s hjs v hv
        cases j with
        | zero =>
          have hsa : s = a := by
            simp only [List.get?_cons_zero] at hjs
            injection hjs with h2
            exact h2.symm
          subst hsa
          rw [hka] at hv
          cases hv
        | succ j2 =>
          exact hbefore j2 (by omega) s (by simpa using hjs) v hv
    | some qa =>
      simp only [firstBestBy, hka] at h
      cases hrest : firstBestBy better k as with
      | none =>
        simp only [hrest] at h
        injection h with h2
        injection h2 with hr hq
        subst hr
        subst hq
        have hnone := firstBestBy_eq_none better k as hrest
        refine ⟨hka, ?_, 0, rfl, ?_⟩
        · intro s hs v hv
          rcases List.mem_cons.mp hs with rfl | hs2
          · rw [hka] at hv
            injection hv with hv2
            subst hv2
            exact hirr _
          · rw [hnone s hs2] at hv
            cases hv
        · intro j hj
          omega
      | some p =>
        obtain ⟨r2, q2⟩ := p
        simp only [hrest] at h
        by_cases hb : better q2 qa = true
        · rw [if_pos hb] at h
          injection h with h2
          injection h2 with hr hq
          subst hr
          subst hq
          obtain ⟨hkr, hall, i, hi, hbefore⟩ := ih r2 q2 hrest
          refine ⟨hkr, ?_, i + 1, by simpa using hi, ?_⟩
          · intro s hs v hv
            rcases List.mem_cons.mp hs with rfl | hs2
            · rw [hka] at hv
              injection hv with hv2
              subst hv2
              exact hasymm _ _ hb
            · exact hall s hs2 v hv
          · intro j hj s hjs v hv
            cases j with
            | zero =>
              have hsa : s = a := by
                simp only [List.get?_cons_zero] at hjs
                injection hjs with h2
                exact h2.symm
              subst hsa
              rw [hka] at hv
              injection hv with hv2
              subst hv2
              exact hb
            | succ j2 =>
              exact hbefore j2 (by omega) s (by simpa using hjs) v hv
        · rw [if_neg hb] at h
          injection h with h2
          injection h2 with hr hq
          subst hr
          subst hq
          obtain ⟨hkr2, hall2, _⟩ := ih r2 q2 hrest
          refine ⟨hka, ?_, 0, rfl, ?_⟩
          · intro s hs v hv
            rcases List.mem_cons.mp hs with rfl | hs2
            · rw [hka] at hv
              injection hv with hv2
              subst hv2
              exact hirr _
            · have h3 := hall2 s hs2 v hv
              exact htrans v q2 qa h3 (Bool.eq_false_iff.mpr hb)
          · intro j hj
            omega

theorem filterMap_eq_map_getD {α : Type} (f : α → Option ℚ) (l : List α)
    (h : ∀ a ∈ l, (f a).isSome = true) :
    l.filterMap f = l.map (fun a => (f a).getD 0) := by
  induction l with
  | nil => rfl
  | cons x xs ih =>
    have hx : f x = some ((f x).getD 0) := by
      cases hfx : f x with
      | none =>
        have := h x (List.mem_cons_self x xs)
        rw [hfx] at this
        simp at this
      | some v => rfl
    rw [List.filterMap_cons, List.map_cons, hx]
    have ih2 := ih (fun a ha => h a (List.mem_cons_of_mem x ha))
    simp [ih2]

theorem string_append_assoc (a b c : String) : a ++ b ++ c = a ++ (b ++ c) := by
  apply String.ext
  simp [String.data_append, List.append_assoc]

theorem natDigits_all_digits (fuel : ℕ) :
    ∀ n, ∀ c ∈ natDigits n fuel, c.isDigit = true := by
  induction fuel with
  | zero => intro n c hc; simp [natDigits] at hc
  | succ f ih =>
    intro n c hc
    cases n with
    | zero => simp [natDigits] at hc
    | succ m =>
      rw [natDigits] at hc
      rcases List.mem_append.mp hc with h1 | h2
      · exact ih _ c h1
      · have hc2 : c = Nat.digitChar ((m + 1) % 10) := by simpa using h2
        subst hc2
        have hlt : (m + 1) % 10 < 10 := Nat.mod_lt _ (by norm_num)
        have hd : ∀ d, d < 10 → (Nat.digitChar d).isDigit = true := by decide
        exact hd _ hlt

theorem natDecimal_all_digits (n : ℕ) :
    ∀ c ∈ (natDecimal n).toList, c.isDigit = true := by
  unfold natDecimal
  by_cases h : n = 0
  · rw [if_pos h]
    intro c hc
    have : c = '0' := by simpa [String.toList] using hc
    subst this
    decide
  · rw [if_neg h]
    intro c hc
    exact natDigits_all_digits n n c (by simpa [String.toList] using hc)

theorem digitChar_mod_isDigit (n : ℕ) : (Nat.digitChar (n % 10)).isDigit = true := by
  have hlt : n % 10 < 10 := Nat.mod_lt _ (by norm_num)
  have hd : ∀ d, d < 10 → (Nat.digitChar d).isDigit = true := by decide
  exact hd _ hlt

theorem format2_decimalShape (q : ℚ) : decimalShape (format2 q) := by
  unfold format2
  refine ⟨(if roundQ (q * 100) < 0 then "-" else "") ++
    natDecimal ((roundQ (q * 100)).natAbs / 100),
    Nat.digitChar ((roundQ (q * 100)).natAbs / 10 % 10),
    Nat.digitChar ((roundQ (q * 100)).natAbs % 10), ?_, ?_, ?_, ?_⟩
  · rw [string_append_assoc]
  · exact digitChar_mod_isDigit _
  · exact digitChar_mod_isDigit _
  · intro c hc
    have hc2 : c ∈ ((if roundQ (q * 100) < 0 then "-" else "")).toList ++
        (natDecimal ((roundQ (q * 100)).natAbs / 100)).toList := by
      simpa [String.toList, String.data_append] using hc
    rcases List.mem_append.mp hc2 with h1 | h2
    · by_cases hneg : roundQ (q * 100) < 0
      · rw [if_pos hneg] at h1
        left
        simpa [String.toList] using h1
      · rw [if_neg hneg] at h1
        simp [String.toList] at h1
    · right
      exact natDecimal_all_digits _ c h2

theorem analyze_data_meets_spec (df : Table) (h : analyzableTable df) :
    ∃ rep, analyze_data df = some rep ∧ analyzedSpec df rep := by
  obtain ⟨hne, hnum⟩ := h
  obtain ⟨r0, rs0, hrows⟩ : ∃ r0 rs0, df.rows = r0 :: rs0 := by
    cases hr : df.rows with
    | nil => exact absurd hr hne
    | cons a l => exact ⟨a, l, rfl⟩
  have hr0mem : r0 ∈ df.rows := by
    rw [hrows]
    exact List.mem_cons_self _ _
  have hp0 : (numCell df "price_change_percentage_24h" r0).isSome = true :=
    (hnum r0 hr0mem).2.2
  obtain ⟨v0, hv0⟩ := Option.isSome_iff_exists.mp hp0
  obtain ⟨⟨hi, hq⟩, hmax⟩ := firstBestBy_isSome (fun a b => decide (b < a))
    (fun r => numCell df "price_change_percentage_24h" r) df.rows r0 hr0mem v0 hv0
  obtain ⟨⟨lo, lq⟩, hmin⟩ := firstBestBy_isSome (fun a b => decide (a < b))
    (fun r => numCell df "price_change_percentage_24h" r) df.rows r0 hr0mem v0 hv0
  have hpm : df.rows.filterMap (fun r => numCell df "current_price" r) =
      df.rows.map (colQ df "current_price") := by
    rw [filterMap_eq_map_getD _ _ (fun a ha => (hnum a ha).2.1)]
    rfl
  have hlen : (df.rows.filterMap (fun r => numCell df "current_price" r)).length =
      df.rows.length := by
    rw [hpm, List.length_map]
  have hempty : (df.rows.filterMap
      (fun r => numCell df "current_price" r)).isEmpty = false := by
    rw [hpm, hrows]
    simp
  have hrep : analyze_data df = some
      { top5 := nlargest df 5 "market_cap"
        avg := some ((df.rows.filterMap
            (fun r => numCell df "current_price" r)).sum /
          ((df.rows.filterMap
            (fun r => numCell df "current_price" r)).length : ℚ))
        highest := hi
        lowest := lo
        avgLine := avgLineIntro ++ "$" ++ format2
          ((df.rows.filterMap (fun r => numCell df "current_price" r)).sum /
          ((df.rows.filterMap
            (fun r => numCell df "current_price" r)).length : ℚ))
        highestLine := "Highest 24h Change: " ++ cellStr (rowCell df "name" hi)
          ++ " (" ++ format2 hq ++ "%)"
        lowestLine := "Lowest 24h Change: " ++ cellStr (rowCell df "name" lo)
          ++ " (" ++ format2 lq ++ "%)" } := by
    simp [analyze_data, hmax, hmin, hempty, renderAvg]
  refine ⟨_, hrep, ?_, ?_, ?_, ?_⟩
  · -- top-5 block
    have hflt : df.rows.filter
        (fun r => (numCell df "market_cap" r).isSome) = df.rows :=
      List.filter_eq_self.mpr (fun a ha => (hnum a ha).1)
    have htop : nlargest df 5 "market_cap" =
        (sortDescBy (colQ df "market_cap") df.rows).take 5 := by
      rw [nlargest, hflt]
    refine ⟨(sortDescBy (colQ df "market_cap") df.rows).drop 5, ?_, ?_, ?_, ?_⟩
    · show List.Perm (nlargest df 5 "market_cap" ++ _) df.rows
      rw [htop, List.take_append_drop]
      exact sortDescBy_perm _ _
    · show List.Pairwise _ (nlargest df 5 "market_cap" ++ _)
      rw [htop, List.take_append_drop]
      exact sortDescBy_pairwise _ _
    · intro q
      show (nlargest df 5 "market_cap" ++ _).filter _ = _
      rw [htop, List.take_append_drop]
      exact sortDescBy_filter _ _ q
    · show (nlargest df 5 "market_cap").length = _
      rw [htop, List.length_take, (sortDescBy_perm (colQ df "market_cap") df.rows).length_eq]
  · -- mean block
    refine ⟨(df.rows.filterMap (fun r => numCell df "current_price" r)).sum /
        ((df.rows.filterMap
          (fun r => numCell df "current_price" r)).length : ℚ), rfl, ?_, rfl,
      format2_decimalShape _⟩
    rw [hlen, hpm]
    have hlen0 : (df.rows.length : ℚ) ≠ 0 := by
      rw [hrows]
      simp
      positivity
    exact div_mul_cancel₀ _ hlen0
  · -- highest block
    have hspec := firstBestBy_spec (fun a b => decide (b < a))
      (by intro a; simp)
      (by
        intro a b hab
        simp only [decide_eq_true_eq] at hab
        simp only [decide_eq_false_iff_not]
        exact not_lt.mpr (le_of_lt hab))
      (by
        intro a b c h1 h2
        simp only [decide_eq_false_iff_not, not_lt] at h1 h2 ⊢
        exact le_trans h1 h2)
      (fun r => numCell df "price_change_percentage_24h" r) df.rows hi hq hmax
    obtain ⟨hk, hall, i, hgi, hbefore⟩ := hspec
    refine ⟨hq, hk, ?_, ⟨i, hgi, ?_⟩, format2_decimalShape _, ?_⟩
    · intro s hs v hv
      have := hall s hs v hv
      simp only [decide_eq_false_iff_not, not_lt] at this
      exact this
    · intro j hj s hjs v hv
      have := hbefore j hj s hjs v hv
      simpa using this
    · refine ⟨"Highest 24h Change: " ++
        (cellStr (rowCell df "name" hi) ++ " ("), ?_⟩
      apply String.ext
      simp [String.data_append]
  · -- lowest block
    have hspec := firstBestBy_spec (fun a b => decide (a < b))
      (by intro a; simp)
      (by
        intro a b hab
        simp only [decide_eq_true_eq] at hab
        simp only [decide_eq_false_iff_not]
        exact not_lt.mpr (le_of_lt hab))
      (by
        intro a b c h1 h2
        simp only [decide_eq_false_iff_not, not_lt] at h1 h2 ⊢
        exact le_trans h2 h1)
      (fun r => numCell df "price_change_percentage_24h" r) df.rows lo lq hmin
    obtain ⟨hk, hall, i, hgi, hbefore⟩ := hspec
    refine ⟨lq, hk, ?_, ⟨i, hgi, ?_⟩, format2_decimalShape _, ?_⟩
    · intro s hs v hv
      have := hall s hs v hv
      simp only [decide_eq_false_iff_not, not_lt] at this
      exact this
    · intro j hj s hjs v hv
      have := hbefore j hj s hjs v hv
      simpa using this
    · refine ⟨"Lowest 24h Change: " ++
        (cellStr (rowCell df "name" lo) ++ " ("), ?_⟩
      apply String.ext
      simp [String.data_append]

theorem analyze_exDf : analyze_data exDf = some exReport := by
  have h1 : firstBestBy (fun a b => decide (b < a))
      (fun r => numCell exDf "price_change_percentage_24h" r) exDf.rows =
      some (exRowA, 5) := by decide
  have h2 : firstBestBy (fun a b => decide (a < b))
      (fun r => numCell exDf "price_change_percentage_24h" r) exDf.rows =
      some (exRowB, -3) := by decide
  have h3 : nlargest exDf 5 "market_cap" = [exRowB, exRowA, exRowC] := by decide
  have h4 : exDf.rows.filterMap (fun r => numCell exDf "current_price" r) =
      [1, 2, 3] := by decide
  have h5 : ([1, 2, 3] : List ℚ).sum / (([1, 2, 3] : List ℚ).length : ℚ) = 2 := by
    norm_num
  have hf2 : format2 2 = "2.00" := by
    norm_num [format2, roundQ, natDecimal, natDigits]
    decide
  have hf5 : format2 5 = "5.00" := by
    norm_num [format2, roundQ, natDecimal, natDigits]
    decide
  have hfm3 : format2 (-3) = "-3.00" := by
    norm_num [format2, roundQ, natDecimal, natDigits]
    decide
  simp only [analyze_data, h1, h2, h3, h4, h5, List.isEmpty]
  norm_num [exReport, renderAvg, avgLineIntro, cellStr, h5, hf2, hf5, hfm3]
  decide

/-- C4: for every non-empty fully numeric table, `analyze_data` computes
the 5 records of greatest `market_cap` with ties broken by input order
(stable selection), the arithmetic mean of `current_price` rendered with
a `$` prefix and exactly two decimal places, and the first records
attaining the maximal and minimal `price_change_percentage_24h`, each
rendered with exactly two decimal places; in particular on the example
table (caps 100, 300, 50; prices 1, 2, 3; changes 5, -3, 1) the top-1 is B,
the mean renders as "2.00", the highest mover is the 5.0 row and the
lowest the -3.0 row. -/
theorem analyze_data_computes :
    (∀ df : Table, analyzableTable df →
      ∃ rep, analyze_data df = some rep ∧ analyzedSpec df rep) ∧
    analyze_data exDf = some exReport ∧
    exReport.top5.head? = some exRowB ∧
    exReport.avgLine = "Average Price of Top 50 Cryptocurrencies: $2.00" ∧
    exReport.highest = exRowA ∧
    exReport.lowest = exRowB ∧
    exReport.highestLine = "Highest 24h Change: A (5.00%)" ∧
    exReport.lowestLine = "Lowest 24h Change: B (-3.00%)" :=
  ⟨fun df h => analyze_data_meets_spec df h, analyze_exDf,
    rfl, rfl, rfl, rfl, rfl, rfl⟩

/-- Witness for C4: the example table satisfies the hypotheses, and the
analyzer meets the specification on it. -/
theorem analyze_data_computes_witness :
    analyzableTable exDf ∧
    ∃ rep, analyze_data exDf = some rep ∧ analyzedSpec exDf rep := by
  have hA : analyzableTable exDf := ⟨by decide, by decide⟩
  exact ⟨hA, analyze_data_computes.1 exDf hA⟩

end PrimeTrade
